import Mathlib

/-!
Verification of the ReFrame front-end check catalogue against its
specification.  The repository's visible sources are fixture tests
(`unittests/resources/checks/frontend_checks.py` and
`tutorials/advanced/containers/container_test.py`); the engine they
exercise (pipeline state machine, loader/validator, retry coordinator,
performance judge) is described by the specification and is modelled
here from the specification's words.  Fixture-level definitions are
translated directly from the Python sources.
-/

namespace Reframe

/-! ### Exceptions (spec section 7 taxonomy and the fixtures' raises) -/

/-- Exception values that hooks, phase bodies and checks may raise.
`userInterrupt` models `KeyboardInterrupt`; `systemExit` models an
explicit process-termination request (`sys.exit`); the others model the
error taxonomy of spec section 7 and the concrete exceptions raised by
the fixtures (`ReframeError`, `PerformanceError`, `ValueError`,
`NameError`, bare `Exception`). -/
inductive Exc where
  | reframeError (msg : String)
  | performanceError (msg : String)
  | sanityError (msg : String)
  | userInterrupt
  | systemExit (code : Int)
  | nameError (n : String)
  | valueError
  | genericError
deriving DecidableEq, Repr

/-- Modelled from the spec: section 7 names `UserInterrupt` and an
explicit process-termination request as the only two exceptions that
propagate past the instance boundary. -/
def Exc.isTermination : Exc → Bool
  | .userInterrupt => true
  | .systemExit _ => true
  | _ => false

/-! ### Phases and hooks (spec sections 4.1, 4.4, 6) -/

/-- Pipeline phase identifiers, spec section 6: phase identifiers are
`{setup, compile, run, sanity, performance, cleanup}`. -/
inductive Phase where
  | setup
  | compile
  | run
  | sanity
  | performance
  | cleanup
deriving DecidableEq, Repr

/-- Outcome of executing one phase body.  `pollInterrupt` is specific to
the Run phase: an external interrupt observed inside the poll loop
(spec section 5). -/
inductive BodyOutcome where
  | ok
  | raises (e : Exc)
  | pollInterrupt
deriving DecidableEq, Repr

/-- Modelled from the spec: a test instance as seen by the pipeline
state machine of section 4.1.  Hooks are recorded per phase in
registration order (section 4.4); each hook is abstracted by its
outcome (`none` = returns normally, `some e` = raises `e`), and each
phase body by a `BodyOutcome`.  `runOnly` makes the pipeline skip
Compile; `hasPerf` guards the Performance phase. -/
structure TestSpec where
  beforeHooks : Phase → List (Option Exc)
  afterHooks : Phase → List (Option Exc)
  body : Phase → BodyOutcome
  runOnly : Bool
  hasPerf : Bool

/-- Observable execution events: which hooks and phase bodies actually
ran, and the Job Controller `cancel` call. -/
inductive Event where
  | beforeHook (p : Phase) (i : Nat)
  | phaseBody (p : Phase)
  | afterHook (p : Phase) (i : Nat)
  | cancelJob
deriving DecidableEq, Repr

/-- The phase an event belongs to, if any. -/
def Event.phaseOf : Event → Option Phase
  | .beforeHook p _ => some p
  | .phaseBody p => some p
  | .afterHook p _ => some p
  | .cancelJob => none

/-- Result of driving a single phase. -/
inductive PhaseResult where
  | ok
  | failed (e : Exc)
  | interrupted (e : Exc) (inPoll : Bool)
deriving DecidableEq, Repr

/-- Modelled from the spec: running an ordered hook list (section 4.1
transition rule).  Hooks run in registration order; the first raising
hook stops the list and reports its exception.  The event constructor
`mk` tags the emitted events; `i` is the index of the first hook. -/
def runHooks (mk : Nat → Event) : List (Option Exc) → Nat → List Event × Option Exc
  | [], _ => ([], none)
  | none :: rest, i =>
    match runHooks mk rest (i + 1) with
    | (evs, r) => (mk i :: evs, r)
  | some e :: _, i => ([mk i], some e)

/-- Classify a raised exception at the phase boundary: termination-kind
exceptions interrupt the instance (spec section 7), all others fail it. -/
def liftExc (e : Exc) (inPoll : Bool) : PhaseResult :=
  if e.isTermination then .interrupted e inPoll else .failed e

/-- Modelled from the spec: section 4.1 transition rule.  Entering phase
`p` invokes in order all `before(p)` hooks, the phase body, then all
`after(p)` hooks; the first raise stops the phase. -/
def runPhase (t : TestSpec) (p : Phase) : List Event × PhaseResult :=
  match runHooks (Event.beforeHook p) (t.beforeHooks p) 0 with
  | (bevs, some e) => (bevs, liftExc e false)
  | (bevs, none) =>
    match t.body p with
    | .raises e => (bevs ++ [Event.phaseBody p], liftExc e false)
    | .pollInterrupt => (bevs ++ [Event.phaseBody p], .interrupted .userInterrupt true)
    | .ok =>
      match runHooks (Event.afterHook p) (t.afterHooks p) 0 with
      | (aevs, some e) => (bevs ++ Event.phaseBody p :: aevs, liftExc e false)
      | (aevs, none) => (bevs ++ Event.phaseBody p :: aevs, .ok)

/-- The phases preceding Performance, in pipeline order; Compile is
skipped for run-only tests (spec section 4.1). -/
def mainPhasesPre (t : TestSpec) : List Phase :=
  Phase.setup :: (if t.runOnly then [] else [Phase.compile]) ++ [Phase.run, Phase.sanity]

/-- Modelled from the spec: the ordered non-cleanup phases of section
4.1, `Setup → (Compile) → Run → Sanity → (Performance)`. -/
def mainPhases (t : TestSpec) : List Phase :=
  mainPhasesPre t ++ (if t.hasPerf then [Phase.performance] else [])

/-- Drive a list of phases in order; the first non-ok phase stops the
sequence (later phases are skipped, spec section 4.1). -/
def runMain (t : TestSpec) : List Phase → List Event × PhaseResult
  | [] => ([], .ok)
  | p :: ps =>
    match runPhase t p with
    | (evs, .ok) =>
      match runMain t ps with
      | (evs2, r2) => (evs ++ evs2, r2)
    | (evs, r) => (evs, r)

/-- Terminal state of one instance (spec section 6 exit surface). -/
inductive Terminal where
  | passed
  | failed (e : Exc)
  | aborted
deriving DecidableEq, Repr

/-- Everything observable about one instance's full pipeline run. -/
structure PipelineResult where
  trace : List Event
  terminal : Terminal
  cleanupFailure : Option Exc
  propagated : Option Exc
  jobCancelled : Bool
deriving DecidableEq, Repr

/-- The exception recorded out of the Cleanup phase, if any. -/
def cleanupExc : PhaseResult → Option Exc
  | .ok => none
  | .failed e => some e
  | .interrupted e _ => some e

/-- Modelled from the spec: the full pipeline of sections 4.1, 5 and 7.
Main phases run in order until the first failure or interrupt; Cleanup
then always runs on a best-effort basis.  A failure inside Cleanup is
recorded but does not mask an earlier failure cause.  An interrupt
cancels the Job Handle, leaves the instance `Aborted`, and propagates to
the pool coordinator after Cleanup. -/
def runPipeline (t : TestSpec) : PipelineResult :=
  match runMain t (mainPhases t) with
  | (mevs, .ok) =>
    match runPhase t Phase.cleanup with
    | (cevs, cres) =>
      { trace := mevs ++ cevs
        terminal := match cleanupExc cres with
          | none => .passed
          | some e => .failed e
        cleanupFailure := cleanupExc cres
        propagated := none
        jobCancelled := false }
  | (mevs, .failed e) =>
    match runPhase t Phase.cleanup with
    | (cevs, cres) =>
      { trace := mevs ++ cevs
        terminal := .failed e
        cleanupFailure := cleanupExc cres
        propagated := none
        jobCancelled := false }
  | (mevs, .interrupted e _) =>
    match runPhase t Phase.cleanup with
    | (cevs, cres) =>
      { trace := mevs ++ Event.cancelJob :: cevs
        terminal := .aborted
        cleanupFailure := cleanupExc cres
        propagated := some e
        jobCancelled := true }

/-! ### Performance references and judgment (spec sections 4.1 and 6) -/

/-- Exact fractions for reference values and tolerance fractions
(denominators are kept positive by construction; comparison is by
cross-multiplication). -/
structure Frac where
  num : Int
  den : Int
deriving DecidableEq, Repr

/-- Embed an integer as a fraction. -/
def Frac.ofInt (n : Int) : Frac := ⟨n, 1⟩

/-- Fraction addition. -/
def Frac.add (a b : Frac) : Frac := ⟨a.num * b.den + b.num * a.den, a.den * b.den⟩

/-- Fraction multiplication. -/
def Frac.mul (a b : Frac) : Frac := ⟨a.num * b.num, a.den * b.den⟩

/-- Fraction comparison by cross-multiplication (valid for the positive
denominators used throughout). -/
def Frac.le (a b : Frac) : Bool := decide (a.num * b.den ≤ b.num * a.den)

/-- Performance reference tuple, spec section 6:
`(expected_value, lower_tolerance_fraction, upper_tolerance_fraction,
unit_string)`. -/
structure PerfReference where
  expected : Frac
  lowerTol : Frac
  upperTol : Frac
  unit : String
deriving DecidableEq, Repr

/-- A measured value is within tolerance of a reference when it lies in
the interval around the expected value spanned by the two tolerance
fractions. -/
def withinTolerance (r : PerfReference) (v : Frac) : Bool :=
  (r.expected.mul ((Frac.ofInt 1).add r.lowerTol)).le v &&
    v.le (r.expected.mul ((Frac.ofInt 1).add r.upperTol))

/-- Association-list lookup, keyed by string (models a Python dict of
the fixtures' `reference` attribute). -/
def lookupEntry {α : Type} (d : List (String × α)) (k : String) : Option α :=
  match d.find? (fun kv => kv.1 == k) with
  | some kv => some kv.2
  | none => none

/-- A per-system reference dictionary: system key to metric key to
reference tuple. -/
def ReferenceDict : Type := List (String × List (String × PerfReference))

/-- Modelled from the spec: section 6, the wildcard system key `*`
supplies a default reference applied when no system-specific entry
exists. -/
def referenceFor (d : ReferenceDict) (system metric : String) : Option PerfReference :=
  match lookupEntry d system with
  | some m => lookupEntry m metric
  | none =>
    match lookupEntry d "*" with
    | some m => lookupEntry m metric
    | none => none

/-- The names of the measured metrics that have a reference and fall
outside its tolerance. -/
def toleranceViolations (system : String) (d : ReferenceDict)
    (metrics : List (String × Frac)) : List String :=
  (metrics.filter (fun mv =>
    match referenceFor d system mv.1 with
    | some r => !withinTolerance r mv.2
    | none => false)).map (fun mv => mv.1)

/-- A test's performance check: either the built-in judgment of measured
metrics against the reference dictionary, or a user-defined
`check_performance` override abstracted by its outcome
(`CustomPerformanceFailureCheck`, frontend_checks.py lines 94-105). -/
inductive PerfCheck where
  | builtin (metrics : List (String × Frac))
  | custom (result : Option Exc)
deriving DecidableEq, Repr

/-- Modelled from the spec: section 4.1 Performance phase.  A tolerance
violation raises a Performance-kind error when the test is strict and is
only logged when the test is non-strict; an exception raised inside a
custom performance check fails the instance regardless of strictness. -/
def perfOutcome (strict : Bool) (system : String) (d : ReferenceDict) :
    PerfCheck → BodyOutcome
  | .custom none => .ok
  | .custom (some e) => .raises e
  | .builtin metrics =>
    match toleranceViolations system d metrics with
    | [] => .ok
    | m :: _ => if strict then .raises (.performanceError m) else .ok

/-! ### Retry coordinator (spec section 4.5) and RetriesCheck -/

/-- Fuel-driven base-10 digit extraction, most significant digit first;
`fuel` bounds the recursion depth and any `fuel ≥ n` is exact. -/
def pyDigitsAux : Nat → Nat → List Nat
  | 0, _ => []
  | fuel + 1, n => if n = 0 then [] else pyDigitsAux fuel (n / 10) ++ [n % 10]

/-- Decimal digits of a natural number, most significant first, as
Python's `str` renders an `int` (zero is rendered as the single digit
0). -/
def pyDigits (n : Nat) : List Nat :=
  if n = 0 then [0] else pyDigitsAux n n

/-- The character of a single decimal digit. -/
def digitCharOf (d : Nat) : Char := Char.ofNat (48 + d)

/-- Python's decimal rendering of a natural number. -/
def pyStrNat (n : Nat) : String := String.mk ((pyDigits n).map digitCharOf)

/-- Whether `needle` occurs as a contiguous substring of `hay` (the
substring search performed by `sn.assert_found` on plain-text
patterns). -/
def strContains (hay needle : String) : Bool :=
  (List.range (hay.length + 1)).any fun i =>
    (hay.toList.drop i).take needle.length == needle.toList

/-- One `Run → Sanity` attempt of `RetriesCheck` (frontend_checks.py
lines 198-208): the prerun command reads the persisted counter, the
executable echoes it to stdout, the postrun commands increment and
persist it, and sanity asserts that the decimal rendering of
`run_to_pass` occurs in the captured stdout.  Returns the sanity verdict
and the new persisted counter. -/
def retriesCheckAttempt (runToPass : Nat) (counter : Nat) : Bool × Nat :=
  (strContains (pyStrNat counter) (pyStrNat runToPass), counter + 1)

/-- Modelled from the spec: section 4.5 Retry Coordinator.  Given a
maximum attempt count, repeats an attempt until it succeeds or the
attempts are exhausted, threading the externally persisted state; the
list collects the verdict of every attempt actually performed. -/
def retryAttempts {σ : Type} (attempt : σ → Bool × σ) : Nat → σ → List Bool
  | 0, _ => []
  | n + 1, s =>
    match attempt s with
    | (true, _) => [true]
    | (false, s') => false :: retryAttempts attempt n s'

/-! ### Loader / Validator (spec sections 4.3 and 4.6) -/

/-- Runtime resources that a deferred expression or a test attribute can
illegally capture (spec section 4.3): an open handle or a one-shot
generator. -/
inductive Capture where
  | openHandle
  | oneShotGenerator
deriving DecidableEq, Repr

/-- Deferred sanity expressions: the small algebra of spec section 4.3
(assertions over matched text, extraction, boolean combinators), plus
leaves capturing a runtime resource (`sn.defer(foo())` over a generator,
a closed-over handle). -/
inductive SanityExpr where
  | assertFound (pattern target : String)
  | assertTrue (b : Bool)
  | extractSingle (pattern target : String) (group : Nat)
  | deferCapture (c : Capture)
  | andE (a b : SanityExpr)
  | orE (a b : SanityExpr)
  | notE (a : SanityExpr)
deriving DecidableEq, Repr

/-- Whether the expression tree closes over a runtime resource. -/
def SanityExpr.closesOverResource : SanityExpr → Bool
  | .assertFound _ _ => false
  | .assertTrue _ => false
  | .extractSingle _ _ _ => false
  | .deferCapture _ => true
  | .andE a b => a.closesOverResource || b.closesOverResource
  | .orE a b => a.closesOverResource || b.closesOverResource
  | .notE a => a.closesOverResource

/-- A discovered test class as the Loader sees it: whether it derives
from a run-only base, whether its body declares an executable, its
declared sanity expression (if its body declares one at all), and any
runtime resources stored in instance attributes. -/
structure TestClass where
  name : String
  runOnly : Bool
  hasExecutable : Bool
  sanity : Option SanityExpr
  attrCaptures : List Capture
deriving DecidableEq, Repr

/-- Outcome of loading one test class. -/
inductive LoadOutcome where
  | admitted (name : String)
  | rejected (name : String) (diag : String)
deriving DecidableEq, Repr

/-- Modelled from the spec: sections 4.3 and 4.6.  A class whose body
cannot be evaluated (no executable and no run-only base) is excluded
with a diagnostic; an instance whose deferred expression or attributes
close over an open handle or a one-shot generator fails structural
validation and is rejected outright. -/
def validateClass (c : TestClass) : LoadOutcome :=
  if !c.hasExecutable && !c.runOnly then
    .rejected c.name "class body cannot be evaluated: no executable and no run-only base"
  else if (match c.sanity with
           | some s => s.closesOverResource
           | none => false) then
    .rejected c.name "deferred expression closes over a runtime resource"
  else if !c.attrCaptures.isEmpty then
    .rejected c.name "instance state captures a runtime resource"
  else
    .admitted c.name

/-- The run queue: only classes whose validation admits them. -/
def runQueue (cs : List TestClass) : List TestClass :=
  cs.filter fun c =>
    match validateClass c with
    | .admitted _ => true
    | .rejected _ _ => false

/-- The validation-rejection report: name and diagnostic of every
rejected class. -/
def rejectionReport (cs : List TestClass) : List (String × String) :=
  cs.filterMap fun c =>
    match validateClass c with
    | .admitted _ => none
    | .rejected n d => some (n, d)

/-- The pool drives a pipeline only for the classes admitted to the run
queue (spec section 4.6): rejected classes never run any phase. -/
def poolRun (cs : List TestClass) (toSpec : TestClass → TestSpec) :
    List (TestClass × PipelineResult) :=
  (runQueue cs).map fun c => (c, runPipeline (toSpec c))

/-! ### Parameter fan-out (spec section 3) and ContainerTest -/

/-- The configuration of one concrete instance produced by fan-out:
class identity, the received parameter value, and the remaining
configuration shared by all siblings. -/
structure InstanceCfg where
  className : String
  param : String
  validSystems : List String
  validProgEnvirons : List String
deriving DecidableEq, Repr

/-- Instantiate a base configuration at one parameter value: everything
but the parameter value is copied unchanged. -/
def instantiateAt (base : InstanceCfg) (v : String) : InstanceCfg :=
  { base with param := v }

/-- Modelled from the spec: section 3 parameter fan-out.  The Loader
expands a declared parameter list into one instance per value, in list
order. -/
def fanOut (base : InstanceCfg) (params : List String) : List InstanceCfg :=
  params.map (instantiateAt base)

/-- Base configuration of `ContainerTest` (container_test.py lines
10-17): valid on `daint:gpu` with the `builtin` environment, declaring
the parameter list `['Sarus', 'Singularity']` for `platform`. -/
def ContainerTestBase : InstanceCfg :=
  { className := "ContainerTest"
    param := ""
    validSystems := ["daint:gpu"]
    validProgEnvirons := ["builtin"] }

/-- The parameter list declared by `ContainerTest.platform`
(container_test.py line 12). -/
def ContainerTestParams : List String := ["Sarus", "Singularity"]

/-! ### Python name resolution for `SystemExitCheck.run_wait` -/

/-- The exceptions relevant to evaluating `sys.exit(1)` in Python. -/
inductive PyExc where
  | nameError (n : String)
  | systemExit (code : Int)
deriving DecidableEq, Repr

/-- The module-level names bound in frontend_checks.py: its imports
(lines 10-16: `os`, `signal`, `time`, `reframe as rfm`,
`reframe.utility.sanity as sn`, `ReframeError`, `PerformanceError`) and
the classes the module defines.  No statement of the module binds the
name `sys`. -/
def frontendChecksGlobals : List String :=
  ["os", "signal", "time", "rfm", "sn", "ReframeError", "PerformanceError",
   "BaseFrontendCheck", "BadSetupCheck", "BadSetupCheckEarly", "NoSystemCheck",
   "NoPrgEnvCheck", "SanityFailureCheck", "PerformanceFailureCheck",
   "CustomPerformanceFailureCheck", "KeyboardInterruptCheck", "SystemExitCheck",
   "CleanupFailTest", "SleepCheck", "SleepCheckPollFail", "SleepCheckPollFailLate",
   "RetriesCheck", "SelfKillCheck", "CompileFailureCheck", "TestWithGenerator",
   "TestWithFileObject", "EmptyInvalidTest"]

/-- A sample of Python's builtin namespace, consulted after the module
globals; `sys` is a module, not a builtin. -/
def pythonBuiltins : List String :=
  ["print", "open", "int", "str", "len", "type", "super", "Exception",
   "KeyboardInterrupt", "SystemExit", "NameError", "ValueError"]

/-- Python name resolution for a global reference inside a method body:
the module globals are consulted, then the builtins; an unbound name
raises `NameError`. -/
def resolveName (globals : List String) (n : String) : Except PyExc Unit :=
  if globals.contains n || pythonBuiltins.contains n then .ok ()
  else .error (.nameError n)

/-- `SystemExitCheck.run_wait` (frontend_checks.py lines 139-141): the
body is the single statement `sys.exit(1)`; evaluating it first resolves
the name `sys` and, only if that succeeds, the call raises
`SystemExit(1)`. -/
def SystemExitCheck_run_wait (globals : List String) : Except PyExc Unit :=
  match resolveName globals "sys" with
  | .error e => .error e
  | .ok _ => .error (.systemExit 1)

/-! ### SleepCheck auto-naming (frontend_checks.py lines 159-179) -/

/-- The instance name built by `SleepCheck.__init__` line 164:
`'%s_%s' % (self.name, SleepCheck._next_id)`. -/
def sleepCheckName (base : String) (id : Nat) : String :=
  base ++ "_" ++ pyStrNat id

/-- One execution of `SleepCheck.__init__` as far as the class-level
counter is concerned: the current `_next_id` is rendered into the
instance name and the counter is then incremented by one (lines 164 and
179). -/
def SleepCheck_init (base : String) (nextId : Nat) : String × Nat :=
  (sleepCheckName base nextId, nextId + 1)

/-- The names produced by a sequence of `k` constructions of
`SleepCheck`, threading the class-level counter. -/
def constructSleepChecks (base : String) : Nat → Nat → List String
  | 0, _ => []
  | k + 1, id =>
    match SleepCheck_init base id with
    | (nm, id') => nm :: constructSleepChecks base k id'

/-! ### Concrete fixture models -/

/-- `BadSetupCheckEarly` (frontend_checks.py lines 40-50): a run-only
test whose `run_before('setup')` hook raises
`ReframeError('Setup failure')`; everything else succeeds. -/
def BadSetupCheckEarly : TestSpec :=
  { beforeHooks := fun p =>
      match p with
      | .setup => [some (.reframeError "Setup failure")]
      | _ => []
    afterHooks := fun _ => []
    body := fun _ => .ok
    runOnly := true
    hasPerf := false }

/-- `KeyboardInterruptCheck(phase='setup')` (frontend_checks.py lines
108-121): its `run_before('setup')` hook raises `KeyboardInterrupt`. -/
def KeyboardInterruptCheckSetup : TestSpec :=
  { beforeHooks := fun p =>
      match p with
      | .setup => [some .userInterrupt]
      | _ => []
    afterHooks := fun _ => []
    body := fun _ => .ok
    runOnly := true
    hasPerf := false }

/-- `KeyboardInterruptCheck(phase='wait')` (frontend_checks.py lines
108-128): `KeyboardInterrupt` is raised while the Run phase waits on the
job, i.e. inside the poll loop. -/
def KeyboardInterruptCheckWait : TestSpec :=
  { beforeHooks := fun _ => []
    afterHooks := fun _ => []
    body := fun p =>
      match p with
      | .run => .pollInterrupt
      | _ => .ok
    runOnly := true
    hasPerf := false }

/-- Modelled from the spec: the behaviour `SystemExitCheck` is meant to
simulate (sections 5 and 7) — an explicit process-termination request
raised from within the Run phase body.  The fixture as written never
reaches `SystemExit` (see the name-resolution embedding above). -/
def SystemExitRunTest : TestSpec :=
  { beforeHooks := fun _ => []
    afterHooks := fun _ => []
    body := fun p =>
      match p with
      | .run => .raises (.systemExit 1)
      | _ => .ok
    runOnly := true
    hasPerf := false }

/-- A test that fails early and also fails in Cleanup: its
`before(setup)` hook raises `ReframeError` and its `before(cleanup)`
hook raises a bare exception (the section 8 scenario, combining
`BadSetupCheckEarly` with `CleanupFailTest`'s failing cleanup hook,
frontend_checks.py lines 153-156). -/
def BadSetupThenCleanupFail : TestSpec :=
  { beforeHooks := fun p =>
      match p with
      | .setup => [some (.reframeError "Setup failure")]
      | .cleanup => [some .genericError]
      | _ => []
    afterHooks := fun _ => []
    body := fun _ => .ok
    runOnly := true
    hasPerf := false }

/-- The reference dictionary of `PerformanceFailureCheck`
(frontend_checks.py lines 87-91): the wildcard system key maps the
`perf` metric to `(20, -0.1, 0.1, 'Gflop/s')`. -/
def PerformanceFailureCheckReference : ReferenceDict :=
  [("*", [("perf", { expected := Frac.ofInt 20, lowerTol := ⟨-1, 10⟩,
                     upperTol := ⟨1, 10⟩, unit := "Gflop/s" })])]

/-- The metrics `PerformanceFailureCheck` measures: `perf` extracted as
`10` from the echoed output `perf: 10 Gflop/s` (frontend_checks.py
lines 22 and 84-86). -/
def PerformanceFailureCheckMetrics : List (String × Frac) := [("perf", Frac.ofInt 10)]

/-- `PerformanceFailureCheck` (frontend_checks.py lines 78-91): a strict
(default) run-only test whose measured `perf` of 10 misses the wildcard
reference of 20 within ±10%. -/
def PerformanceFailureCheck : TestSpec :=
  { beforeHooks := fun _ => []
    afterHooks := fun _ => []
    body := fun p =>
      match p with
      | .performance =>
        perfOutcome true "generic" PerformanceFailureCheckReference
          (.builtin PerformanceFailureCheckMetrics)
      | _ => .ok
    runOnly := true
    hasPerf := true }

/-- A non-strict variant of the same measurement, the section 4.1
non-strict mode: tolerance violations are logged but do not fail the
instance. -/
def PerformanceFailureCheckNonStrict : TestSpec :=
  { beforeHooks := fun _ => []
    afterHooks := fun _ => []
    body := fun p =>
      match p with
      | .performance =>
        perfOutcome false "generic" PerformanceFailureCheckReference
          (.builtin PerformanceFailureCheckMetrics)
      | _ => .ok
    runOnly := true
    hasPerf := true }

/-- `CustomPerformanceFailureCheck` (frontend_checks.py lines 94-105): a
non-strict (`strict_check = False`) run-only test whose overridden
`check_performance` raises `PerformanceError('performance failure')`. -/
def CustomPerformanceFailureCheck : TestSpec :=
  { beforeHooks := fun _ => []
    afterHooks := fun _ => []
    body := fun p =>
      match p with
      | .performance =>
        perfOutcome false "generic" []
          (.custom (some (.performanceError "performance failure")))
      | _ => .ok
    runOnly := true
    hasPerf := true }

/-- `TestWithGenerator` (frontend_checks.py lines 239-251): a run-only
class whose final sanity expression is `sn.defer(foo())` over a one-shot
generator. -/
def TestWithGenerator : TestClass :=
  { name := "TestWithGenerator"
    runOnly := true
    hasExecutable := false
    sanity := some (.deferCapture .oneShotGenerator)
    attrCaptures := [] }

/-- `TestWithFileObject` (frontend_checks.py lines 254-265): a run-only
class whose sanity expression is `sn.assert_true(1)` but which stores a
file object in the instance attribute `x`. -/
def TestWithFileObject : TestClass :=
  { name := "TestWithFileObject"
    runOnly := true
    hasExecutable := false
    sanity := some (.assertTrue true)
    attrCaptures := [.openHandle] }

/-- `EmptyInvalidTest` (frontend_checks.py lines 268-270): a bare
`RegressionTest` subclass with an empty body — no executable, no
run-only base, no sanity expression. -/
def EmptyInvalidTest : TestClass :=
  { name := "EmptyInvalidTest"
    runOnly := false
    hasExecutable := false
    sanity := none
    attrCaptures := [] }

/-! ### Structural lemmas about the pipeline -/

theorem runHooks_all_none (mk : Nat → Event) (hooks : List (Option Exc)) :
    ∀ i : Nat, (∀ x ∈ hooks, x = none) →
      runHooks mk hooks i = ((List.range' i hooks.length).map mk, none) := by
  induction hooks with
  | nil => intro i _; simp [runHooks]
  | cons h tl ih =>
    intro i hall
    have hh : h = none := hall h (by simp)
    subst hh
    have ihh := ih (i + 1) (fun x hx => hall x (by simp [hx]))
    simp [runHooks, ihh, List.range']

theorem runHooks_raise (mk : Nat → Event) (e : Exc) (rest : List (Option Exc)) :
    ∀ (pre : List (Option Exc)) (i : Nat), (∀ x ∈ pre, x = none) →
      runHooks mk (pre ++ some e :: rest) i =
        ((List.range' i (pre.length + 1)).map mk, some e) := by
  intro pre
  induction pre with
  | nil => intro i _; simp [runHooks, List.range']
  | cons h tl ih =>
    intro i hall
    have hh : h = none := hall h (by simp)
    subst hh
    have ihh := ih (i + 1) (fun x hx => hall x (by simp [hx]))
    simp [runHooks, ihh, List.range']

theorem runHooks_mem (mk : Nat → Event) (hooks : List (Option Exc)) :
    ∀ (i : Nat) (ev : Event), ev ∈ (runHooks mk hooks i).1 → ∃ j, ev = mk j := by
  induction hooks with
  | nil => intro i ev hev; simp [runHooks] at hev
  | cons h tl ih =>
    intro i ev hev
    match h with
    | none =>
      rw [runHooks] at hev
      rcases hm : runHooks mk tl (i + 1) with ⟨evs, r⟩
      rw [hm] at hev
      simp at hev
      rcases hev with hev | hev
      · exact ⟨i, hev⟩
      · exact ih (i + 1) ev (by rw [hm]; exact hev)
    | some e =>
      simp [runHooks] at hev
      exact ⟨i, hev⟩

theorem runHooks_cons_head (mk : Nat → Event) (h : Option Exc)
    (tl : List (Option Exc)) (i : Nat) :
    ∃ l, (runHooks mk (h :: tl) i).1 = mk i :: l := by
  match h with
  | none =>
    rw [runHooks]
    rcases hm : runHooks mk tl (i + 1) with ⟨evs, r⟩
    exact ⟨evs, rfl⟩
  | some e => exact ⟨[], rfl⟩

theorem runPhase_before_trace (t : TestSpec) (p : Phase) :
    ∃ l, (runPhase t p).1 = (runHooks (Event.beforeHook p) (t.beforeHooks p) 0).1 ++ l := by
  rw [runPhase]
  rcases hb : runHooks (Event.beforeHook p) (t.beforeHooks p) 0 with ⟨bevs, br⟩
  match br with
  | some e => exact ⟨[], by simp⟩
  | none =>
    match hbd : t.body p with
    | .raises e => exact ⟨[Event.phaseBody p], by simp⟩
    | .pollInterrupt => exact ⟨[Event.phaseBody p], by simp⟩
    | .ok =>
      rcases ha : runHooks (Event.afterHook p) (t.afterHooks p) 0 with ⟨aevs, ar⟩
      match ar with
      | some e => exact ⟨Event.phaseBody p :: aevs, by simp⟩
      | none => exact ⟨Event.phaseBody p :: aevs, by simp⟩

theorem runPhase_mem_phaseOf (t : TestSpec) (p : Phase) (ev : Event) :
    ev ∈ (runPhase t p).1 → ev.phaseOf = some p := by
  intro hev
  rw [runPhase] at hev
  rcases hb : runHooks (Event.beforeHook p) (t.beforeHooks p) 0 with ⟨bevs, br⟩
  rw [hb] at hev
  have hbe : ∀ x ∈ bevs, Event.phaseOf x = some p := by
    intro x hx
    rcases runHooks_mem (Event.beforeHook p) (t.beforeHooks p) 0 x (by rw [hb]; exact hx)
      with ⟨j, hj⟩
    simp [hj, Event.phaseOf]
  match br with
  | some e => exact hbe ev hev
  | none =>
    match hbd : t.body p with
    | .raises e =>
      rw [hbd] at hev
      simp at hev
      rcases hev with hev | hev
      · exact hbe ev hev
      · simp [hev, Event.phaseOf]
    | .pollInterrupt =>
      rw [hbd] at hev
      simp at hev
      rcases hev with hev | hev
      · exact hbe ev hev
      · simp [hev, Event.phaseOf]
    | .ok =>
      rw [hbd] at hev
      rcases ha : runHooks (Event.afterHook p) (t.afterHooks p) 0 with ⟨aevs, ar⟩
      rw [ha] at hev
      have hae : ∀ x ∈ aevs, Event.phaseOf x = some p := by
        intro x hx
        rcases runHooks_mem (Event.afterHook p) (t.afterHooks p) 0 x (by rw [ha]; exact hx)
          with ⟨j, hj⟩
        simp [hj, Event.phaseOf]
      match ar with
      | some e =>
        simp at hev
        rcases hev with hev | hev | hev
        · exact hbe ev hev
        · simp [hev, Event.phaseOf]
        · exact hae ev hev
      | none =>
        simp at hev
        rcases hev with hev | hev | hev
        · exact hbe ev hev
        · simp [hev, Event.phaseOf]
        · exact hae ev hev

theorem runPhase_ok (t : TestSpec) (p : Phase)
    (hb : ∀ x ∈ t.beforeHooks p, x = none)
    (ha : ∀ x ∈ t.afterHooks p, x = none)
    (hbd : t.body p = .ok) :
    runPhase t p =
      ((List.range' 0 (t.beforeHooks p).length).map (Event.beforeHook p) ++
        Event.phaseBody p ::
          (List.range' 0 (t.afterHooks p).length).map (Event.afterHook p), .ok) := by
  rw [runPhase, runHooks_all_none (Event.beforeHook p) (t.beforeHooks p) 0 hb, hbd,
    runHooks_all_none (Event.afterHook p) (t.afterHooks p) 0 ha]

theorem runPhase_before_raise (t : TestSpec) (p : Phase) (e : Exc)
    (pre rest : List (Option Exc))
    (hsplit : t.beforeHooks p = pre ++ some e :: rest)
    (hpre : ∀ x ∈ pre, x = none) :
    runPhase t p =
      ((List.range' 0 (pre.length + 1)).map (Event.beforeHook p), liftExc e false) := by
  rw [runPhase, hsplit, runHooks_raise (Event.beforeHook p) e rest pre 0 hpre]

theorem liftExc_interrupted (e' : Exc) (b' : Bool) (e : Exc) (b : Bool)
    (h : liftExc e' b' = .interrupted e b) : e.isTermination = true ∧ e' = e := by
  rw [liftExc] at h
  by_cases ht : e'.isTermination
  · rw [if_pos ht] at h
    cases h
    exact ⟨ht, rfl⟩
  · rw [if_neg ht] at h
    cases h

theorem runPhase_interrupted_isTermination (t : TestSpec) (p : Phase) (e : Exc) (b : Bool)
    (h : (runPhase t p).2 = .interrupted e b) : e.isTermination = true := by
  rw [runPhase] at h
  rcases hb : runHooks (Event.beforeHook p) (t.beforeHooks p) 0 with ⟨bevs, br⟩
  rw [hb] at h
  match br with
  | some e' => exact (liftExc_interrupted e' false e b h).1
  | none =>
    match hbd : t.body p with
    | .raises e' =>
      rw [hbd] at h
      exact (liftExc_interrupted e' false e b h).1
    | .pollInterrupt =>
      rw [hbd] at h
      cases h
      rfl
    | .ok =>
      rw [hbd] at h
      rcases ha : runHooks (Event.afterHook p) (t.afterHooks p) 0 with ⟨aevs, ar⟩
      rw [ha] at h
      match ar with
      | some e' => exact (liftExc_interrupted e' false e b h).1
      | none => cases h

theorem runMain_all_ok (t : TestSpec) (l : List Phase)
    (h : ∀ p ∈ l, (runPhase t p).2 = .ok) : (runMain t l).2 = .ok := by
  induction l with
  | nil => rfl
  | cons p ps ih =>
    have hp : (runPhase t p).2 = .ok := h p (by simp)
    rw [runMain]
    rcases hm : runPhase t p with ⟨evs, r⟩
    rw [hm] at hp
    simp at hp
    subst hp
    rcases hm2 : runMain t ps with ⟨evs2, r2⟩
    have := ih (fun q hq => h q (by simp [hq]))
    rw [hm2] at this
    simpa using this

theorem runMain_mem (t : TestSpec) (l : List Phase) (ev : Event) :
    ev ∈ (runMain t l).1 → ∃ p ∈ l, ev ∈ (runPhase t p).1 := by
  induction l with
  | nil => intro h; simp [runMain] at h
  | cons p ps ih =>
    intro h
    rw [runMain] at h
    rcases hm : runPhase t p with ⟨evs, r⟩
    rw [hm] at h
    match r with
    | .ok =>
      rcases hm2 : runMain t ps with ⟨evs2, r2⟩
      rw [hm2] at h
      simp at h
      rcases h with h | h
      · exact ⟨p, by simp, by rw [hm]; exact h⟩
      · rcases ih (by rw [hm2]; exact h) with ⟨q, hq, hqev⟩
        exact ⟨q, by simp [hq], hqev⟩
    | .failed e => exact ⟨p, by simp, by rw [hm]; exact h⟩
    | .interrupted e b => exact ⟨p, by simp, by rw [hm]; exact h⟩

theorem runMain_append_ok (t : TestSpec) (A : List Phase)
    (hA : ∀ p ∈ A, (runPhase t p).2 = .ok) (l : List Phase) :
    ∃ tA, runMain t (A ++ l) = (tA ++ (runMain t l).1, (runMain t l).2) ∧
      ∀ ev ∈ tA, ∃ p ∈ A, ev ∈ (runPhase t p).1 := by
  induction A with
  | nil => exact ⟨[], by simp, by simp⟩
  | cons p ps ih =>
    have hp : (runPhase t p).2 = .ok := hA p (by simp)
    rcases ih (fun q hq => hA q (by simp [hq])) with ⟨tA, htA, hmem⟩
    rcases hm : runPhase t p with ⟨evs, r⟩
    rw [hm] at hp
    simp at hp
    subst hp
    refine ⟨evs ++ tA, ?_, ?_⟩
    · rw [List.cons_append, runMain, hm, htA]
      simp
    · intro ev hev
      rcases List.mem_append.mp hev with hev | hev
      · exact ⟨p, by simp, by rw [hm]; exact hev⟩
      · rcases hmem ev hev with ⟨q, hq, hqev⟩
        exact ⟨q, by simp [hq], hqev⟩

theorem runMain_cons_fail (t : TestSpec) (p : Phase) (ps : List Phase)
    (evs : List Event) (r : PhaseResult)
    (hm : runPhase t p = (evs, r)) (hr : r ≠ .ok) :
    runMain t (p :: ps) = (evs, r) := by
  rw [runMain, hm]
  match r, hr with
  | .failed e, _ => rfl
  | .interrupted e b, _ => rfl

theorem runMain_interrupted_isTermination (t : TestSpec) (l : List Phase) (e : Exc) (b : Bool)
    (h : (runMain t l).2 = .interrupted e b) : e.isTermination = true := by
  induction l with
  | nil => simp [runMain] at h
  | cons p ps ih =>
    rw [runMain] at h
    rcases hm : runPhase t p with ⟨evs, r⟩
    rw [hm] at h
    match r with
    | .ok =>
      rcases hm2 : runMain t ps with ⟨evs2, r2⟩
      rw [hm2] at h
      simp at h
      apply ih
      rw [hm2, h]
    | .failed e' => simp at h
    | .interrupted e' b' =>
      simp at h
      rcases h with ⟨he, hb⟩
      subst he
      exact runPhase_interrupted_isTermination t p e' b' (by rw [hm])

theorem runPipeline_ok (t : TestSpec)
    (h : (runMain t (mainPhases t)).2 = .ok) :
    runPipeline t =
      { trace := (runMain t (mainPhases t)).1 ++ (runPhase t Phase.cleanup).1
        terminal := match cleanupExc (runPhase t Phase.cleanup).2 with
          | none => .passed
          | some e => .failed e
        cleanupFailure := cleanupExc (runPhase t Phase.cleanup).2
        propagated := none
        jobCancelled := false } := by
  rw [runPipeline]
  rcases hm : runMain t (mainPhases t) with ⟨mevs, mr⟩
  rw [hm] at h
  simp at h
  subst h
  rcases hc : runPhase t Phase.cleanup with ⟨cevs, cres⟩
  simp

theorem runPipeline_failed (t : TestSpec) (e : Exc)
    (h : (runMain t (mainPhases t)).2 = .failed e) :
    runPipeline t =
      { trace := (runMain t (mainPhases t)).1 ++ (runPhase t Phase.cleanup).1
        terminal := .failed e
        cleanupFailure := cleanupExc (runPhase t Phase.cleanup).2
        propagated := none
        jobCancelled := false } := by
  rw [runPipeline]
  rcases hm : runMain t (mainPhases t) with ⟨mevs, mr⟩
  rw [hm] at h
  simp at h
  subst h
  rcases hc : runPhase t Phase.cleanup with ⟨cevs, cres⟩
  simp

theorem runPipeline_interrupted (t : TestSpec) (e : Exc) (b : Bool)
    (h : (runMain t (mainPhases t)).2 = .interrupted e b) :
    runPipeline t =
      { trace := (runMain t (mainPhases t)).1 ++
          Event.cancelJob :: (runPhase t Phase.cleanup).1
        terminal := .aborted
        cleanupFailure := cleanupExc (runPhase t Phase.cleanup).2
        propagated := some e
        jobCancelled := true } := by
  rw [runPipeline]
  rcases hm : runMain t (mainPhases t) with ⟨mevs, mr⟩
  rw [hm] at h
  match mr, h with
  | .interrupted e' b', h =>
    simp at h
    rcases h with ⟨he, hb⟩
    subst he
    subst hb
    rcases hc : runPhase t Phase.cleanup with ⟨cevs, cres⟩
    simp

theorem mainPhases_nodup (t : TestSpec) : (mainPhases t).Nodup := by
  rcases hr : t.runOnly <;> rcases hp : t.hasPerf <;>
    simp [mainPhases, mainPhasesPre, hr, hp]

theorem cleanup_not_mem_mainPhases (t : TestSpec) : Phase.cleanup ∉ mainPhases t := by
  rcases hr : t.runOnly <;> rcases hp : t.hasPerf <;>
    simp [mainPhases, mainPhasesPre, hr, hp]

theorem performance_not_mem_mainPhasesPre (t : TestSpec) :
    Phase.performance ∉ mainPhasesPre t := by
  rcases hr : t.runOnly <;> simp [mainPhasesPre, hr]

theorem mainPhases_of_hasPerf (t : TestSpec) (h : t.hasPerf = true) :
    mainPhases t = mainPhasesPre t ++ [Phase.performance] := by
  simp [mainPhases, h]

theorem perfOutcome_nonstrict_builtin (sys : String) (d : ReferenceDict)
    (metrics : List (String × Frac)) :
    perfOutcome false sys d (.builtin metrics) = .ok := by
  rw [perfOutcome]
  split <;> simp

theorem perf_body_raises_fails (t : TestSpec) (e : Exc)
    (hp : t.hasPerf = true)
    (hbh : t.beforeHooks Phase.performance = [])
    (hbody : t.body Phase.performance = .raises e)
    (hterm : e.isTermination = false)
    (hpre : ∀ p ∈ mainPhasesPre t, (runPhase t p).2 = .ok) :
    (runPipeline t).terminal = Terminal.failed e := by
  have hph : runPhase t Phase.performance = ([Event.phaseBody Phase.performance], .failed e) := by
    rw [runPhase, hbh]
    simp [runHooks, hbody, liftExc, hterm]
  have hfail : (runMain t (mainPhases t)).2 = .failed e := by
    rw [mainPhases_of_hasPerf t hp]
    rcases runMain_append_ok t (mainPhasesPre t) hpre [Phase.performance] with ⟨tA, htA, _⟩
    rw [htA]
    simp [runMain, hph]
  rw [runPipeline_failed t e hfail]

theorem pipeline_all_ok (t : TestSpec)
    (hall : ∀ p ∈ mainPhases t, (runPhase t p).2 = .ok)
    (hclean : (runPhase t Phase.cleanup).2 = .ok) :
    (runPipeline t).terminal = Terminal.passed := by
  have hm := runMain_all_ok t (mainPhases t) hall
  rw [runPipeline_ok t hm]
  simp [hclean, cleanupExc]

/-- C5: the Retry Coordinator applied to `RetriesCheck` with pass
condition "counter == 2" from a persisted counter starting at 0: with
maximum attempts 3 the instance fails Sanity on attempts 1 and 2 and
passes on attempt 3; with maximum attempts 1 it fails after exactly one
attempt. -/
theorem retriesCheck_attempt_outcomes :
    retryAttempts (retriesCheckAttempt 2) 3 0 = [false, false, true] ∧
    retryAttempts (retriesCheckAttempt 2) 1 0 = [false] := by
  exact ⟨by decide, by decide⟩

/-- C8: parameter fan-out over a declared list `[A, B]` produces exactly
two instances, in order A then B, each identical to the base
configuration except for the parameter value; for every input list,
expansion is deterministic and order-preserving. -/
theorem parameter_fanout (base : InstanceCfg) (A B : String) :
    fanOut base [A, B] = [instantiateAt base A, instantiateAt base B] ∧
    (fanOut base [A, B]).length = 2 ∧
    (∀ ps : List String, (fanOut base ps).map (fun i => i.param) = ps) ∧
    (∀ ps : List String, ∀ i ∈ fanOut base ps,
      i.className = base.className ∧ i.validSystems = base.validSystems ∧
        i.validProgEnvirons = base.validProgEnvirons) := by
  refine ⟨rfl, rfl, ?_, ?_⟩
  · intro ps
    induction ps with
    | nil => rfl
    | cons v vs ih => simp_all [fanOut, instantiateAt]
  · intro ps i hi
    rcases List.mem_map.mp hi with ⟨v, _, hv⟩
    subst hv
    exact ⟨rfl, rfl, rfl⟩

/-- C8 witness: fan-out of the concrete `ContainerTest` parameter list. -/
theorem parameter_fanout_witness :
    fanOut ContainerTestBase ContainerTestParams =
      [instantiateAt ContainerTestBase "Sarus", instantiateAt ContainerTestBase "Singularity"] ∧
    (fanOut ContainerTestBase ContainerTestParams).length = 2 ∧
    (fanOut ContainerTestBase ContainerTestParams).map (fun i => i.param) =
      ContainerTestParams :=
  ⟨(parameter_fanout ContainerTestBase "Sarus" "Singularity").1,
   (parameter_fanout ContainerTestBase "Sarus" "Singularity").2.1,
   (parameter_fanout ContainerTestBase "Sarus" "Singularity").2.2.1 ContainerTestParams⟩

/-- C9: `SystemExitCheck.run_wait` evaluates `sys.exit(1)` in a module
whose globals never bind `sys`, so every invocation raises `NameError`
and never reaches `SystemExit`. -/
theorem systemExitCheck_run_wait_nameError :
    SystemExitCheck_run_wait frontendChecksGlobals =
      Except.error (PyExc.nameError "sys") ∧
    SystemExitCheck_run_wait frontendChecksGlobals ≠
      Except.error (PyExc.systemExit 1) := by
  refine ⟨rfl, fun h => ?_⟩
  rw [show SystemExitCheck_run_wait frontendChecksGlobals =
      Except.error (PyExc.nameError "sys") from rfl] at h
  simp at h

/-- C6: a test class that fails load-time structural validation — its
deferred expression or instance state closes over an open handle or a
one-shot generator, or its class body cannot be evaluated at all — is
rejected by the Loader with a nonempty diagnostic before any pipeline
phase runs: it never enters the run queue, the pool never drives a
pipeline for it, and it appears in the rejection report whenever it was
discovered. -/
theorem loader_rejects_invalid (c : TestClass)
    (h : (∃ s, c.sanity = some s ∧ s.closesOverResource = true) ∨
         c.attrCaptures ≠ [] ∨
         (c.hasExecutable = false ∧ c.runOnly = false)) :
    (∃ d, validateClass c = .rejected c.name d ∧ d ≠ "") ∧
    (∀ cs : List TestClass, c ∉ runQueue cs) ∧
    (∀ (cs : List TestClass) (toSpec : TestClass → TestSpec),
      ∀ pr ∈ poolRun cs toSpec, pr.1 ≠ c) ∧
    (∀ cs : List TestClass, c ∈ cs → ∃ d, (c.name, d) ∈ rejectionReport cs) := by
  have hrej : ∃ d, validateClass c = .rejected c.name d ∧ d ≠ "" := by
    rw [validateClass]
    by_cases h1 : (!c.hasExecutable && !c.runOnly) = true
    · rw [if_pos h1]
      exact ⟨_, rfl, by simp⟩
    · rw [if_neg h1]
      rcases h with ⟨s, hs, hres⟩ | hattr | ⟨he, hr⟩
      · rw [hs]
        rw [if_pos hres]
        exact ⟨_, rfl, by simp⟩
      · by_cases h2 : (match c.sanity with
            | some s => s.closesOverResource
            | none => false) = true
        · rw [if_pos h2]
          exact ⟨_, rfl, by simp⟩
        · rw [if_neg h2, if_pos (by simpa using hattr)]
          exact ⟨_, rfl, by simp⟩
      · exact absurd (by simp [he, hr]) h1
  rcases hrej with ⟨d, hd, hdne⟩
  have hqueue : ∀ cs : List TestClass, c ∉ runQueue cs := by
    intro cs hc
    have := (List.mem_filter.mp hc).2
    rw [hd] at this
    simp at this
  refine ⟨⟨d, hd, hdne⟩, hqueue, ?_, ?_⟩
  · intro cs toSpec pr hpr hpr1
    rcases List.mem_map.mp hpr with ⟨c', hc', hcc⟩
    apply hqueue cs
    rw [← hpr1, ← hcc]
    exact hc'
  · intro cs hc
    refine ⟨d, List.mem_filterMap.mpr ⟨c, hc, ?_⟩⟩
    rw [hd]

/-- C6 witness: the three invalid fixtures of frontend_checks.py are all
rejected and kept out of every run queue. -/
theorem loader_rejects_invalid_witness :
    ((∃ s, TestWithGenerator.sanity = some s ∧ s.closesOverResource = true) ∧
      (∃ d, validateClass TestWithGenerator = .rejected TestWithGenerator.name d ∧ d ≠ "") ∧
      ∀ cs : List TestClass, TestWithGenerator ∉ runQueue cs) ∧
    (TestWithFileObject.attrCaptures ≠ [] ∧
      (∃ d, validateClass TestWithFileObject = .rejected TestWithFileObject.name d ∧ d ≠ "") ∧
      ∀ cs : List TestClass, TestWithFileObject ∉ runQueue cs) ∧
    ((EmptyInvalidTest.hasExecutable = false ∧ EmptyInvalidTest.runOnly = false) ∧
      (∃ d, validateClass EmptyInvalidTest = .rejected EmptyInvalidTest.name d ∧ d ≠ "") ∧
      ∀ cs : List TestClass, EmptyInvalidTest ∉ runQueue cs) :=
  ⟨⟨⟨.deferCapture .oneShotGenerator, by decide, by decide⟩,
    (loader_rejects_invalid TestWithGenerator
      (Or.inl ⟨.deferCapture .oneShotGenerator, by decide, by decide⟩)).1,
    (loader_rejects_invalid TestWithGenerator
      (Or.inl ⟨.deferCapture .oneShotGenerator, by decide, by decide⟩)).2.1⟩,
   ⟨by decide,
    (loader_rejects_invalid TestWithFileObject (Or.inr (Or.inl (by decide)))).1,
    (loader_rejects_invalid TestWithFileObject (Or.inr (Or.inl (by decide)))).2.1⟩,
   ⟨by decide,
    (loader_rejects_invalid EmptyInvalidTest (Or.inr (Or.inr (by decide)))).1,
    (loader_rejects_invalid EmptyInvalidTest (Or.inr (Or.inr (by decide)))).2.1⟩⟩

/-- C2: when the main phases have already failed, the Cleanup phase
still executes on a best-effort basis: its trace is appended to the
run's trace, a hook list that starts is entered (its first hook runs
even if it raises), fully well-behaved cleanup hooks all run, and a
failure raised inside Cleanup is recorded in `cleanupFailure` without
replacing the originally recorded failure cause. -/
theorem cleanup_best_effort (t : TestSpec) (e : Exc)
    (h : (runMain t (mainPhases t)).2 = PhaseResult.failed e) :
    (runPipeline t).terminal = Terminal.failed e ∧
    (runPipeline t).cleanupFailure = cleanupExc (runPhase t Phase.cleanup).2 ∧
    (∃ pre, (runPipeline t).trace = pre ++ (runPhase t Phase.cleanup).1) ∧
    (∀ hd tl, t.beforeHooks Phase.cleanup = hd :: tl →
      Event.beforeHook Phase.cleanup 0 ∈ (runPipeline t).trace) ∧
    ((∀ x ∈ t.beforeHooks Phase.cleanup, x = none) →
     (∀ x ∈ t.afterHooks Phase.cleanup, x = none) →
     t.body Phase.cleanup = .ok →
      (∀ i < (t.beforeHooks Phase.cleanup).length,
        Event.beforeHook Phase.cleanup i ∈ (runPipeline t).trace) ∧
      (∀ i < (t.afterHooks Phase.cleanup).length,
        Event.afterHook Phase.cleanup i ∈ (runPipeline t).trace)) ∧
    (∀ e', (runPhase t Phase.cleanup).2 = PhaseResult.failed e' →
      (runPipeline t).cleanupFailure = some e' ∧
        (runPipeline t).terminal = Terminal.failed e) := by
  have hp := runPipeline_failed t e h
  have hcmem : ∀ ev ∈ (runPhase t Phase.cleanup).1, ev ∈ (runPipeline t).trace := by
    intro ev hev
    rw [hp]
    exact List.mem_append.mpr (Or.inr hev)
  refine ⟨by rw [hp], by rw [hp], ⟨(runMain t (mainPhases t)).1, by rw [hp]⟩, ?_, ?_, ?_⟩
  · intro hd tl hcons
    apply hcmem
    rcases runPhase_before_trace t Phase.cleanup with ⟨l, hl⟩
    rw [hl, hcons]
    rcases runHooks_cons_head (Event.beforeHook Phase.cleanup) hd tl 0 with ⟨l', hl'⟩
    rw [hl']
    simp
  · intro hb ha hbd
    have hok := runPhase_ok t Phase.cleanup hb ha hbd
    constructor
    · intro i hi
      apply hcmem
      rw [hok]
      simp only [List.mem_append]
      exact Or.inl (List.mem_map.mpr ⟨i, List.mem_range'_1.mpr ⟨Nat.zero_le i, by omega⟩, rfl⟩)
    · intro i hi
      apply hcmem
      rw [hok]
      simp only [List.mem_append, List.mem_cons]
      exact Or.inr (Or.inr (List.mem_map.mpr
        ⟨i, List.mem_range'_1.mpr ⟨Nat.zero_le i, by omega⟩, rfl⟩))
  · intro e' he'
    rw [hp]
    simp [he', cleanupExc]

/-- C2 witness: a test whose before(setup) hook raises `ReframeError`
and whose before(cleanup) hook raises a bare exception keeps the setup
failure as its cause while recording the cleanup failure, and its
cleanup hook still runs. -/
theorem cleanup_best_effort_witness :
    (runMain BadSetupThenCleanupFail (mainPhases BadSetupThenCleanupFail)).2 =
      PhaseResult.failed (Exc.reframeError "Setup failure") ∧
    ((runPipeline BadSetupThenCleanupFail).terminal =
        Terminal.failed (Exc.reframeError "Setup failure") ∧
      (runPipeline BadSetupThenCleanupFail).cleanupFailure =
        cleanupExc (runPhase BadSetupThenCleanupFail Phase.cleanup).2 ∧
      (∃ pre, (runPipeline BadSetupThenCleanupFail).trace =
        pre ++ (runPhase BadSetupThenCleanupFail Phase.cleanup).1) ∧
      (∀ hd tl, BadSetupThenCleanupFail.beforeHooks Phase.cleanup = hd :: tl →
        Event.beforeHook Phase.cleanup 0 ∈ (runPipeline BadSetupThenCleanupFail).trace) ∧
      ((∀ x ∈ BadSetupThenCleanupFail.beforeHooks Phase.cleanup, x = none) →
       (∀ x ∈ BadSetupThenCleanupFail.afterHooks Phase.cleanup, x = none) →
       BadSetupThenCleanupFail.body Phase.cleanup = .ok →
        (∀ i < (BadSetupThenCleanupFail.beforeHooks Phase.cleanup).length,
          Event.beforeHook Phase.cleanup i ∈ (runPipeline BadSetupThenCleanupFail).trace) ∧
        (∀ i < (BadSetupThenCleanupFail.afterHooks Phase.cleanup).length,
          Event.afterHook Phase.cleanup i ∈ (runPipeline BadSetupThenCleanupFail).trace)) ∧
      (∀ e', (runPhase BadSetupThenCleanupFail Phase.cleanup).2 = PhaseResult.failed e' →
        (runPipeline BadSetupThenCleanupFail).cleanupFailure = some e' ∧
          (runPipeline BadSetupThenCleanupFail).terminal =
            Terminal.failed (Exc.reframeError "Setup failure"))) :=
  ⟨by decide,
   cleanup_best_effort BadSetupThenCleanupFail (Exc.reframeError "Setup failure") (by decide)⟩

/-- C4: when the main phases end interrupted — an external interrupt in
the Run poll loop or a termination-kind exception raised from a hook or
phase body — the Job Handle is cancelled, the instance terminates
`Aborted`, its Cleanup still runs (its trace is appended and an existing
first cleanup hook executes), and the interrupt is propagated to the
pool coordinator rather than downgraded to an instance-level failure;
only termination-kind exceptions are propagated this way. -/
theorem interrupt_cancels_aborts_propagates (t : TestSpec) (e : Exc) (b : Bool)
    (h : (runMain t (mainPhases t)).2 = PhaseResult.interrupted e b) :
    (runPipeline t).jobCancelled = true ∧
    Event.cancelJob ∈ (runPipeline t).trace ∧
    (runPipeline t).terminal = Terminal.aborted ∧
    (∃ pre, (runPipeline t).trace = pre ++ (runPhase t Phase.cleanup).1) ∧
    (∀ hd tl, t.beforeHooks Phase.cleanup = hd :: tl →
      Event.beforeHook Phase.cleanup 0 ∈ (runPipeline t).trace) ∧
    (runPipeline t).propagated = some e ∧
    e.isTermination = true := by
  have hp := runPipeline_interrupted t e b h
  have hcmem : ∀ ev ∈ (runPhase t Phase.cleanup).1, ev ∈ (runPipeline t).trace := by
    intro ev hev
    rw [hp]
    simp only [List.mem_append, List.mem_cons]
    exact Or.inr (Or.inr hev)
  refine ⟨by rw [hp], by rw [hp]; simp, by rw [hp], ?_, ?_, by rw [hp],
    runMain_interrupted_isTermination t (mainPhases t) e b h⟩
  · refine ⟨(runMain t (mainPhases t)).1 ++ [Event.cancelJob], ?_⟩
    rw [hp]
    simp
  · intro hd tl hcons
    apply hcmem
    rcases runPhase_before_trace t Phase.cleanup with ⟨l, hl⟩
    rw [hl, hcons]
    rcases runHooks_cons_head (Event.beforeHook Phase.cleanup) hd tl 0 with ⟨l', hl'⟩
    rw [hl']
    simp

/-- C4 witness: `KeyboardInterruptCheck(phase='wait')`, interrupted in
the Run poll loop, is cancelled, aborted, cleaned up and propagated. -/
theorem interrupt_cancels_aborts_propagates_witness :
    (runMain KeyboardInterruptCheckWait (mainPhases KeyboardInterruptCheckWait)).2 =
      PhaseResult.interrupted Exc.userInterrupt true ∧
    ((runPipeline KeyboardInterruptCheckWait).jobCancelled = true ∧
      Event.cancelJob ∈ (runPipeline KeyboardInterruptCheckWait).trace ∧
      (runPipeline KeyboardInterruptCheckWait).terminal = Terminal.aborted ∧
      (∃ pre, (runPipeline KeyboardInterruptCheckWait).trace =
        pre ++ (runPhase KeyboardInterruptCheckWait Phase.cleanup).1) ∧
      (∀ hd tl, KeyboardInterruptCheckWait.beforeHooks Phase.cleanup = hd :: tl →
        Event.beforeHook Phase.cleanup 0 ∈ (runPipeline KeyboardInterruptCheckWait).trace) ∧
      (runPipeline KeyboardInterruptCheckWait).propagated = some Exc.userInterrupt ∧
      Exc.userInterrupt.isTermination = true) :=
  ⟨by decide,
   interrupt_cancels_aborts_propagates KeyboardInterruptCheckWait Exc.userInterrupt true
     (by decide)⟩

/-- C3: for a non-strict test instance a measured metric outside its
tolerance does not fail the instance — the pipeline still passes — while
an exception raised inside a custom performance check fails the instance
with that exception regardless of the strictness flag. -/
theorem nonstrict_tolerance_vs_custom_raise :
    (∀ (t : TestSpec) (sys : String) (d : ReferenceDict) (metrics : List (String × Frac)),
      t.hasPerf = true →
      t.beforeHooks Phase.performance = [] →
      t.afterHooks Phase.performance = [] →
      t.body Phase.performance = perfOutcome false sys d (.builtin metrics) →
      toleranceViolations sys d metrics ≠ [] →
      (∀ p ∈ mainPhasesPre t, (runPhase t p).2 = .ok) →
      (runPhase t Phase.cleanup).2 = .ok →
      (runPipeline t).terminal = Terminal.passed) ∧
    (∀ (t : TestSpec) (strict : Bool) (sys : String) (d : ReferenceDict) (e : Exc),
      t.hasPerf = true →
      t.beforeHooks Phase.performance = [] →
      t.body Phase.performance = perfOutcome strict sys d (.custom (some e)) →
      e.isTermination = false →
      (∀ p ∈ mainPhasesPre t, (runPhase t p).2 = .ok) →
      (runPipeline t).terminal = Terminal.failed e) := by
  constructor
  · intro t sys d metrics hp hbh hah hbody _ hpre hclean
    have hperf : (runPhase t Phase.performance).2 = .ok := by
      have := runPhase_ok t Phase.performance (by rw [hbh]; simp) (by rw [hah]; simp)
        (by rw [hbody, perfOutcome_nonstrict_builtin])
      rw [this]
    apply pipeline_all_ok t ?_ hclean
    intro p hpmem
    rw [mainPhases_of_hasPerf t hp] at hpmem
    rcases List.mem_append.mp hpmem with hpmem | hpmem
    · exact hpre p hpmem
    · simp at hpmem
      subst hpmem
      exact hperf
  · intro t strict sys d e hp hbh hbody hterm hpre
    apply perf_body_raises_fails t e hp hbh ?_ hterm hpre
    rw [hbody]
    rfl

/-- C3 witness: the non-strict variant of the out-of-tolerance
measurement still passes, while `CustomPerformanceFailureCheck`
(non-strict) fails with the `PerformanceError` its custom check
raises. -/
theorem nonstrict_tolerance_vs_custom_raise_witness :
    (toleranceViolations "generic" PerformanceFailureCheckReference
        PerformanceFailureCheckMetrics = ["perf"] ∧
      (runPipeline PerformanceFailureCheckNonStrict).terminal = Terminal.passed) ∧
    ((runPipeline CustomPerformanceFailureCheck).terminal =
      Terminal.failed (Exc.performanceError "performance failure")) :=
  ⟨⟨by decide,
    nonstrict_tolerance_vs_custom_raise.1 PerformanceFailureCheckNonStrict "generic"
      PerformanceFailureCheckReference PerformanceFailureCheckMetrics
      (by decide) (by decide) (by decide) rfl (by decide) (by decide) (by decide)⟩,
   nonstrict_tolerance_vs_custom_raise.2 CustomPerformanceFailureCheck false "generic"
     [] (Exc.performanceError "performance failure")
     (by decide) (by decide) rfl (by decide) (by decide)⟩

/-- C7: the wildcard system key supplies the reference whenever no
system-specific entry exists, and a strict (default) instance whose
measured metric falls outside the tolerance interval of its reference
fails with a Performance-kind error naming that metric. -/
theorem strict_wildcard_reference :
    (∀ (d : ReferenceDict) (sys m : String),
      lookupEntry d sys = none → referenceFor d sys m = referenceFor d "*" m) ∧
    (∀ (t : TestSpec) (sys : String) (d : ReferenceDict) (metrics : List (String × Frac))
        (m : String) (ms : List String),
      t.hasPerf = true →
      t.beforeHooks Phase.performance = [] →
      t.body Phase.performance = perfOutcome true sys d (.builtin metrics) →
      toleranceViolations sys d metrics = m :: ms →
      (∀ p ∈ mainPhasesPre t, (runPhase t p).2 = .ok) →
      (runPipeline t).terminal = Terminal.failed (Exc.performanceError m)) := by
  constructor
  · intro d sys m hnone
    rw [referenceFor, hnone, referenceFor]
    rcases hw : lookupEntry d "*" with _ | mm
    · rfl
    · rfl
  · intro t sys d metrics m ms hp hbh hbody hviol hpre
    apply perf_body_raises_fails t (Exc.performanceError m) hp hbh ?_ rfl hpre
    rw [hbody, perfOutcome, hviol]
    simp

/-- C7 witness: `PerformanceFailureCheck` on a system with no specific
entry uses the wildcard reference `(20, -0.1, 0.1, 'Gflop/s')`, and its
measured `perf` of 10 fails the strict instance with a Performance-kind
error. -/
theorem strict_wildcard_reference_witness :
    (lookupEntry PerformanceFailureCheckReference "generic" = none ∧
      referenceFor PerformanceFailureCheckReference "generic" "perf" =
        referenceFor PerformanceFailureCheckReference "*" "perf") ∧
    (toleranceViolations "generic" PerformanceFailureCheckReference
        PerformanceFailureCheckMetrics = ["perf"] ∧
      (runPipeline PerformanceFailureCheck).terminal =
        Terminal.failed (Exc.performanceError "perf")) :=
  ⟨⟨by decide,
    strict_wildcard_reference.1 PerformanceFailureCheckReference "generic" "perf"
      (by decide)⟩,
   ⟨by decide,
    strict_wildcard_reference.2 PerformanceFailureCheck "generic"
      PerformanceFailureCheckReference PerformanceFailureCheckMetrics "perf" []
      (by decide) (by decide) rfl (by decide) (by decide)⟩⟩

/-- C1 counterexample: `KeyboardInterruptCheck(phase='setup')` has a
before(setup) hook that raises (`KeyboardInterrupt`), yet the instance
does not reach the terminal state Failed: it aborts and the interrupt
propagates to the pool, refuting the claim for interrupt-kind raises. -/
theorem before_hook_raise_not_always_failed :
    KeyboardInterruptCheckSetup.beforeHooks Phase.setup = [some Exc.userInterrupt] ∧
    (runPipeline KeyboardInterruptCheckSetup).terminal = Terminal.aborted ∧
    (runPipeline KeyboardInterruptCheckSetup).terminal ≠
      Terminal.failed Exc.userInterrupt ∧
    (runPipeline KeyboardInterruptCheckSetup).propagated = some Exc.userInterrupt := by
  refine ⟨by decide, by decide, ?_, by decide⟩
  intro h
  rw [show (runPipeline KeyboardInterruptCheckSetup).terminal = Terminal.aborted
    from by decide] at h
  simp at h

/-- C1 (amended): if a before(P) hook raises an exception that is not a
termination-kind interrupt, while every phase before P ran cleanly, then
the phase body of P does not execute, the remaining hooks of P and all
later phases are skipped, and the instance reaches the terminal state
Failed with that exception. -/
theorem before_hook_raise_fails_phase (t : TestSpec) (P : Phase) (e : Exc)
    (A B : List Phase) (pre rest : List (Option Exc))
    (hsplit : mainPhases t = A ++ P :: B)
    (hA : ∀ q ∈ A, (runPhase t q).2 = .ok)
    (hhooks : t.beforeHooks P = pre ++ some e :: rest)
    (hpre : ∀ x ∈ pre, x = none)
    (hterm : e.isTermination = false) :
    (runPipeline t).terminal = Terminal.failed e ∧
    Event.phaseBody P ∉ (runPipeline t).trace ∧
    (∀ i, Event.afterHook P i ∉ (runPipeline t).trace) ∧
    (∀ j, pre.length < j → Event.beforeHook P j ∉ (runPipeline t).trace) ∧
    (∀ Q ∈ B, Event.phaseBody Q ∉ (runPipeline t).trace ∧
      ∀ i, Event.beforeHook Q i ∉ (runPipeline t).trace ∧
        Event.afterHook Q i ∉ (runPipeline t).trace) := by
  have hPr : runPhase t P =
      ((List.range' 0 (pre.length + 1)).map (Event.beforeHook P), .failed e) := by
    have h0 := runPhase_before_raise t P e pre rest hhooks hpre
    rw [liftExc, hterm] at h0
    simpa using h0
  rcases runMain_append_ok t A hA (P :: B) with ⟨tA, htA, htAmem⟩
  have hPB : runMain t (P :: B) =
      ((List.range' 0 (pre.length + 1)).map (Event.beforeHook P), .failed e) :=
    runMain_cons_fail t P B _ _ hPr (by simp)
  have hmain : runMain t (mainPhases t) =
      (tA ++ (List.range' 0 (pre.length + 1)).map (Event.beforeHook P), .failed e) := by
    rw [hsplit, htA, hPB]
  have hfail : (runMain t (mainPhases t)).2 = .failed e := by rw [hmain]
  have hp := runPipeline_failed t e hfail
  have hnd : (A ++ P :: B).Nodup := by rw [← hsplit]; exact mainPhases_nodup t
  have hdisj : A.Disjoint (P :: B) := (List.nodup_append.mp hnd).2.2
  have hPBnd : (P :: B).Nodup := (List.nodup_append.mp hnd).2.1
  have hPnotB : P ∉ B := by
    intro hPB'
    exact (List.nodup_cons.mp hPBnd).1 hPB'
  have hmemMain : ∀ R ∈ P :: B, R ∈ mainPhases t := by
    intro R hR
    rw [hsplit]
    exact List.mem_append.mpr (Or.inr hR)
  have hkey : ∀ (ev : Event) (R : Phase), ev.phaseOf = some R → R ∈ P :: B →
      ev ∈ (runPipeline t).trace →
      ev ∈ (List.range' 0 (pre.length + 1)).map (Event.beforeHook P) := by
    intro ev R hR hRPB hev
    rw [hp] at hev
    simp only [hmain, List.append_assoc, List.mem_append] at hev
    rcases hev with hev | hev | hev
    · rcases htAmem ev hev with ⟨q, hq, hqev⟩
      have := runPhase_mem_phaseOf t q ev hqev
      rw [hR] at this
      have hqR : R = q := Option.some.inj this
      subst hqR
      exact absurd hRPB (hdisj hq)
    · exact hev
    · have := runPhase_mem_phaseOf t Phase.cleanup ev hev
      rw [hR] at this
      have hRc : R = Phase.cleanup := Option.some.inj this
      exact absurd (hmemMain R hRPB) (hRc ▸ cleanup_not_mem_mainPhases t)
  have hPmem : P ∈ P :: B := by simp
  refine ⟨by rw [hp], ?_, ?_, ?_, ?_⟩
  · intro hev
    have := hkey (Event.phaseBody P) P rfl hPmem hev
    simp [List.mem_map] at this
  · intro i hev
    have := hkey (Event.afterHook P i) P rfl hPmem hev
    simp [List.mem_map] at this
  · intro j hj hev
    have := hkey (Event.beforeHook P j) P rfl hPmem hev
    rcases List.mem_map.mp this with ⟨j', hj', hjeq⟩
    have hjj : j' = j := by
      injection hjeq with h1 h2
    rw [hjj] at hj'
    have := (List.mem_range'_1.mp hj').2
    omega
  · intro Q hQ
    have hQmem : Q ∈ P :: B := by simp [hQ]
    have hQP : Q ≠ P := fun h' => hPnotB (h' ▸ hQ)
    refine ⟨?_, ?_⟩
    · intro hev
      have := hkey (Event.phaseBody Q) Q rfl hQmem hev
      simp [List.mem_map] at this
    · intro i
      refine ⟨?_, ?_⟩
      · intro hev
        have := hkey (Event.beforeHook Q i) Q rfl hQmem hev
        rcases List.mem_map.mp this with ⟨j', _, hjeq⟩
        injection hjeq with h1 h2
        exact hQP h1.symm
      · intro hev
        have := hkey (Event.afterHook Q i) Q rfl hQmem hev
        simp [List.mem_map] at this

/-- C1 witness: `BadSetupCheckEarly`, whose single before(setup) hook
raises `ReframeError('Setup failure')`: the setup body never runs, run
and sanity are skipped, and the instance fails with that error. -/
theorem before_hook_raise_fails_phase_witness :
    mainPhases BadSetupCheckEarly = [] ++ Phase.setup :: [Phase.run, Phase.sanity] ∧
    BadSetupCheckEarly.beforeHooks Phase.setup =
      [] ++ some (Exc.reframeError "Setup failure") :: [] ∧
    (Exc.reframeError "Setup failure").isTermination = false ∧
    ((runPipeline BadSetupCheckEarly).terminal =
        Terminal.failed (Exc.reframeError "Setup failure") ∧
      Event.phaseBody Phase.setup ∉ (runPipeline BadSetupCheckEarly).trace ∧
      (∀ i, Event.afterHook Phase.setup i ∉ (runPipeline BadSetupCheckEarly).trace) ∧
      (∀ j, (0 : Nat) < j →
        Event.beforeHook Phase.setup j ∉ (runPipeline BadSetupCheckEarly).trace) ∧
      (∀ Q ∈ [Phase.run, Phase.sanity],
        Event.phaseBody Q ∉ (runPipeline BadSetupCheckEarly).trace ∧
        ∀ i, Event.beforeHook Q i ∉ (runPipeline BadSetupCheckEarly).trace ∧
          Event.afterHook Q i ∉ (runPipeline BadSetupCheckEarly).trace)) :=
  ⟨by decide, by decide, by decide,
   by
    have h := before_hook_raise_fails_phase BadSetupCheckEarly Phase.setup
      (Exc.reframeError "Setup failure") [] [Phase.run, Phase.sanity] [] []
      (by decide) (by decide) (by decide) (by decide) (by decide)
    simpa using h⟩

theorem pyDigitsAux_eq_digits :
    ∀ fuel n : Nat, n ≤ fuel → pyDigitsAux fuel n = (Nat.digits 10 n).reverse := by
  intro fuel
  induction fuel with
  | zero =>
    intro n hn
    have h0 : n = 0 := Nat.le_zero.mp hn
    subst h0
    simp [pyDigitsAux]
  | succ f ih =>
    intro n hn
    by_cases h0 : n = 0
    · subst h0
      simp [pyDigitsAux]
    · rw [pyDigitsAux, if_neg h0]
      have hlt : n / 10 < n := Nat.div_lt_self (Nat.pos_of_ne_zero h0) (by norm_num)
      rw [ih (n / 10) (by omega)]
      rw [Nat.digits_def' (by norm_num : (1 : Nat) < 10) (Nat.pos_of_ne_zero h0)]
      simp

theorem pyDigits_eq_digits (n : Nat) :
    pyDigits n = if n = 0 then [0] else (Nat.digits 10 n).reverse := by
  rw [pyDigits]
  by_cases h0 : n = 0
  · rw [if_pos h0, if_pos h0]
  · rw [if_neg h0, if_neg h0, pyDigitsAux_eq_digits n n le_rfl]

theorem digits_ne_single_zero (b : Nat) (hb : b ≠ 0) : Nat.digits 10 b ≠ [0] := by
  intro h
  have := Nat.ofDigits_digits 10 b
  rw [h] at this
  simp [Nat.ofDigits] at this
  exact hb this.symm

theorem pyDigits_injective (a b : Nat) (h : pyDigits a = pyDigits b) : a = b := by
  rw [pyDigits_eq_digits, pyDigits_eq_digits] at h
  by_cases ha : a = 0 <;> by_cases hb : b = 0
  · rw [ha, hb]
  · rw [if_pos ha, if_neg hb] at h
    have : Nat.digits 10 b = [0] := by
      have := congrArg List.reverse h
      simpa using this.symm
    exact absurd this (digits_ne_single_zero b hb)
  · rw [if_neg ha, if_pos hb] at h
    have : Nat.digits 10 a = [0] := by
      have := congrArg List.reverse h
      simpa using this
    exact absurd this (digits_ne_single_zero a ha)
  · rw [if_neg ha, if_neg hb] at h
    exact Nat.digits_inj_iff.mp (List.reverse_injective h)

theorem pyDigits_lt_ten (a : Nat) : ∀ d ∈ pyDigits a, d < 10 := by
  intro d hd
  rw [pyDigits_eq_digits] at hd
  by_cases ha : a = 0
  · rw [if_pos ha] at hd
    simp at hd
    omega
  · rw [if_neg ha] at hd
    exact Nat.digits_lt_base (by norm_num) (List.mem_reverse.mp hd)

theorem digitCharOf_inj_lt :
    ∀ d1 < 10, ∀ d2 < 10, digitCharOf d1 = digitCharOf d2 → d1 = d2 := by decide

theorem map_digitCharOf_inj :
    ∀ l1 l2 : List Nat, (∀ d ∈ l1, d < 10) → (∀ d ∈ l2, d < 10) →
      l1.map digitCharOf = l2.map digitCharOf → l1 = l2 := by
  intro l1
  induction l1 with
  | nil =>
    intro l2 _ _ h
    cases l2 with
    | nil => rfl
    | cons b tl2 => simp at h
  | cons a tl ih =>
    intro l2 h1 h2 h
    cases l2 with
    | nil => simp at h
    | cons b tl2 =>
      simp only [List.map_cons, List.cons.injEq] at h
      rcases h with ⟨hab, htl⟩
      have hba : a = b := digitCharOf_inj_lt a (h1 a (by simp)) b (h2 b (by simp)) hab
      subst hba
      rw [ih tl2 (fun d hd => h1 d (by simp [hd])) (fun d hd => h2 d (by simp [hd])) htl]

theorem pyStrNat_injective (a b : Nat) (h : pyStrNat a = pyStrNat b) : a = b := by
  rw [pyStrNat, pyStrNat] at h
  have hdata : (pyDigits a).map digitCharOf = (pyDigits b).map digitCharOf :=
    congrArg String.data h
  exact pyDigits_injective a b
    (map_digitCharOf_inj (pyDigits a) (pyDigits b)
      (pyDigits_lt_ten a) (pyDigits_lt_ten b) hdata)

theorem sleepCheckName_inj (base : String) (i j : Nat)
    (h : sleepCheckName base i = sleepCheckName base j) : i = j := by
  rw [sleepCheckName, sleepCheckName] at h
  have hdata := congrArg String.data h
  rw [String.data_append, String.data_append, String.data_append, String.data_append,
    List.append_assoc, List.append_assoc] at hdata
  have h1 := List.append_cancel_left hdata
  have h2 := List.append_cancel_left h1
  exact pyStrNat_injective i j (String.ext h2)

theorem constructSleepChecks_eq (base : String) :
    ∀ k id : Nat, constructSleepChecks base k id =
      (List.range' id k).map (sleepCheckName base) := by
  intro k
  induction k with
  | zero => intro id; simp [constructSleepChecks]
  | succ k' ih =>
    intro id
    rw [constructSleepChecks, SleepCheck_init]
    simp only []
    rw [ih (id + 1)]
    simp [List.range']

/-- C10: a sequence of `k` constructions of `SleepCheck` starting from
the class-level counter 0 names the instances with suffixes 0 through
k-1 in construction order (each construction renders the current
counter and increments it by one), and the resulting names are pairwise
distinct. -/
theorem sleepCheck_sequential_names (base : String) (k : Nat) :
    constructSleepChecks base k 0 = (List.range k).map (sleepCheckName base) ∧
    (constructSleepChecks base k 0).Nodup := by
  have h := constructSleepChecks_eq base k 0
  constructor
  · rw [h, List.range_eq_range' k]
  · rw [h]
    exact List.Nodup.map (fun i j => sleepCheckName_inj base i j)
      (by apply List.nodup_range'; omega)

end Reframe
